import Mathlib

set_option maxHeartbeats 1000000

/-! Embedding of the survey-export script src/app.py: the CSV response parser
(parse_survey_csv), the roster constructor (get_all_users) and the
roster/survey merge (merge_data), together with the text helpers they use. -/

/-- Whitespace characters removed by Python str.strip. -/
def pyWhitespace (c : Char) : Bool :=
  c == ' ' || c == '\t' || c == '\n' || c == '\r' || c == '\x0b' || c == '\x0c'

/-- Embedding of Python str.strip: remove leading and trailing whitespace. -/
def pyStrip (s : String) : String :=
  String.mk (((s.data.dropWhile pyWhitespace).reverse.dropWhile pyWhitespace).reverse)

/-- Embedding of the script's field cleaning pattern: replacing every
double-quote character by the empty string deletes exactly those characters. -/
def pyRemoveQuotes (s : String) : String :=
  String.mk (s.data.filter (fun c => c != '"'))

/-- Cleaning applied to every header and data cell in parse_survey_csv:
strip, then delete double quotes. -/
def cleanField (s : String) : String := pyRemoveQuotes (pyStrip s)

/-- Embedding of Python str.split on a newline separator. -/
def splitNl : List Char → List (List Char)
  | [] => [[]]
  | c :: cs =>
    if c == '\n' then [] :: splitNl cs
    else
      match splitNl cs with
      | [] => [[c]]
      | f :: rest => (c :: f) :: rest

/-- Parser states of the csv.reader default dialect. -/
inductive CsvState where
  | startRecord
  | startField
  | inField
  | inQuoted
  | quoteInQuoted

/-- One character step of the csv.reader state machine (default dialect:
comma delimiter, double-quote quoting, doubled-quote escaping, non-strict). -/
def csvCharStep (st : CsvState) (field : List Char) (fields : List String)
    (c : Char) : CsvState × List Char × List String :=
  match st with
  | .startRecord =>
    if c == '"' then (.inQuoted, field, fields)
    else if c == ',' then (.startField, [], String.mk field.reverse :: fields)
    else (.inField, c :: field, fields)
  | .startField =>
    if c == '"' then (.inQuoted, field, fields)
    else if c == ',' then (.startField, [], String.mk field.reverse :: fields)
    else (.inField, c :: field, fields)
  | .inField =>
    if c == ',' then (.startField, [], String.mk field.reverse :: fields)
    else (.inField, c :: field, fields)
  | .inQuoted =>
    if c == '"' then (.quoteInQuoted, field, fields)
    else (.inQuoted, c :: field, fields)
  | .quoteInQuoted =>
    if c == '"' then (.inQuoted, '"' :: field, fields)
    else if c == ',' then (.startField, [], String.mk field.reverse :: fields)
    else (.inField, c :: field, fields)

/-- Run the csv state machine across the characters of one input line. -/
def csvConsume (st : CsvState) (field : List Char) (fields : List String) :
    List Char → CsvState × List Char × List String
  | [] => (st, field, fields)
  | c :: cs =>
    match csvCharStep st field fields c with
    | (st2, f2, fs2) => csvConsume st2 f2 fs2 cs

/-- Embedding of csv.reader over a list of newline-free lines: one row per
line, a blank line yielding an empty row, and an unterminated quoted field
continuing into the following line. -/
def csvReadGo (st : CsvState) (field : List Char) (fields : List String) :
    List String → List (List String)
  | [] =>
    match st with
    | .startRecord => []
    | _ => [(String.mk field.reverse :: fields).reverse]
  | line :: rest =>
    match csvConsume st field fields line.data with
    | (st2, f2, fs2) =>
      match st2 with
      | .inQuoted => csvReadGo .inQuoted f2 fs2 rest
      | .startRecord => [] :: csvReadGo .startRecord [] [] rest
      | _ => (String.mk f2.reverse :: fs2).reverse :: csvReadGo .startRecord [] [] rest

/-- Embedding of csv.reader applied to the list of lines of the csv text. -/
def csvRead (lines : List String) : List (List String) :=
  csvReadGo .startRecord [] [] lines

/-- One parsed survey response, as assembled in parse_survey_csv. -/
structure SurveyRecord where
  name : String
  email : String
  answers : List String
  date : String
deriving DecidableEq

/-- Embedding of Python list.index, with none for a raised ValueError. -/
def pyIndex : List String → String → Option Nat
  | [], _ => none
  | a :: t, x => if a == x then some 0 else (pyIndex t x).map (· + 1)

/-- Loop body of parse_survey_csv for one data row; none models the
IndexError raised when the row is too short for a located column index. -/
def parseRow (idxEmail idxDate : Nat) (row : List String) : Option SurveyRecord :=
  let data := row.map cleanField
  match data.get? idxEmail with
  | none => none
  | some e =>
    match data.get? 0 with
    | none => none
    | some n =>
      match data.get? idxDate with
      | none => none
      | some d =>
        some { name := pyStrip n
               email := pyStrip e
               answers := (data.take idxDate).drop 1 ++ data.drop (idxDate + 1)
               date := d }

/-- The row loop of parse_survey_csv; a row failure aborts the whole call. -/
def parseRows (idxEmail idxDate : Nat) : List (List String) → Option (List SurveyRecord)
  | [] => some []
  | row :: rest =>
    match parseRow idxEmail idxDate row with
    | none => none
    | some r =>
      match parseRows idxEmail idxDate rest with
      | none => none
      | some rs => some (r :: rs)

/-- Embedding of parse_survey_csv from src/app.py. none models an uncaught
exception; some [] is the logged missing-column fallback. -/
def parse_survey_csv (csv_text : String) : Option (List SurveyRecord) :=
  let lines := (splitNl (pyStrip csv_text).data).map String.mk
  match csvRead lines with
  | [] => none
  | headerRow :: rest =>
    let headers := headerRow.map cleanField
    match pyIndex headers "Dirección Email" with
    | none => some []
    | some idxEmail =>
      match pyIndex headers "Fecha" with
      | none => some []
      | some idxDate => parseRows idxEmail idxDate rest

/-- One roster user as stored in the dict built by get_all_users. -/
structure User where
  name : String
  email : String
deriving DecidableEq

/-- One element of the users array of the AJAX roster response; fullname and
email may be absent. -/
structure RosterUser where
  fullname : Option String
  email : Option String
deriving DecidableEq

/-- Assignment into a Python dict keyed by strings: replace the value at an
existing key in place, otherwise append the new binding. -/
def dictInsert : List (String × User) → String → User → List (String × User)
  | [], k, v => [(k, v)]
  | p :: d, k, v => if p.1 == k then (k, v) :: d else p :: dictInsert d k v

/-- Lookup in the ordered-dict model. -/
def dictFind (d : List (String × User)) (k : String) : Option User :=
  (d.find? (fun p => p.1 == k)).map Prod.snd

/-- Loop body of get_all_users: skip a roster entry whose email is missing or
empty, otherwise assign it under its email key. -/
def rosterStep (users : List (String × User)) (u : RosterUser) : List (String × User) :=
  match u.email with
  | some email =>
    if email ≠ "" then
      dictInsert users email { name := u.fullname.getD "", email := email }
    else users
  | none => users

/-- Embedding of get_all_users: build the email-keyed user dict, skipping
roster entries whose email is missing or empty. -/
def get_all_users (data : List RosterUser) : List (String × User) :=
  data.foldl rosterStep []

/-- The values view of the user dict, in insertion order. -/
def dictValues (d : List (String × User)) : List User := d.map Prod.snd

/-- Loop body of merge_data for one user; none models the IndexError on
answers[0] when the first matching record has an empty answer list. -/
def merge_row (survey : List SurveyRecord) (user : User) : Option (List String) :=
  let survey_entry := survey.find? (fun entry => entry.email == user.email)
  let group : Option String :=
    match survey_entry with
    | some entry => entry.answers.get? 0
    | none => some ""
  let date : String :=
    match survey.find? (fun entry => entry.email == user.email) with
    | some entry => entry.date
    | none => ""
  let answers : List String :=
    match survey_entry with
    | some entry => entry.answers
    | none => []
  match group with
  | some g => some ([user.name, g, date] ++ answers.drop 1)
  | none => none

/-- The user loop of merge_data; a row failure aborts the whole call. -/
def mergeRows (survey : List SurveyRecord) : List User → Option (List (List String))
  | [] => some []
  | u :: us =>
    match merge_row survey u with
    | none => none
    | some row =>
      match mergeRows survey us with
      | none => none
      | some rows => some (row :: rows)

/-- Question labels derived from the answer count of the first record. -/
def sampleQs (n : Nat) : List String :=
  (List.range n).map (fun i => s!"Pregunta {i + 1}")

/-- Header row built by merge_data for n answer columns. -/
def mergeHeader (n : Nat) : List String :=
  ["Nombre Completo", "Grupos", "Fecha de Encuesta", "Email de Encuestados"] ++ sampleQs n

/-- Embedding of merge_data from src/app.py. -/
def merge_data (all_users : List (String × User)) (survey : List SurveyRecord) :
    Option (List (List String)) :=
  match survey with
  | [] => some []
  | s0 :: _ =>
    match mergeRows survey (dictValues all_users) with
    | some rows => some (mergeHeader s0.answers.length :: rows)
    | none => none

/-- A double-quote character occurs in the string. -/
def hasQuote (s : String) : Bool := s.data.any (fun c => c == '"')

example : csvRead ["a,b", "c"] = [["a", "b"], ["c"]] := rfl

example : csvRead ["\"Bo\"\"b\",x", "", "y"] = [["Bo\"b", "x"], [], ["y"]] := rfl

example :
    parse_survey_csv "Nombre,Dirección Email,Fecha\nBob,b@x.com,hoy" =
      some [⟨"Bob", "b@x.com", ["b@x.com"], "hoy"⟩] := rfl

example :
    parse_survey_csv "Nombre,Q1,Q2,Dirección Email,Fecha,Q3\nBob,a1,a2,bob@x.com,2025-01-01,a3" =
      some [⟨"Bob", "bob@x.com", ["a1", "a2", "bob@x.com", "a3"], "2025-01-01"⟩] := rfl

example : parse_survey_csv "Nombre,Correo,Fecha\nBob,b@x.com,hoy" = some [] := rfl

example :
    merge_data [("alice@x.com", ⟨"Alice", "alice@x.com"⟩)]
        [⟨"Bob", "bob@x.com", ["g"], "2025-01-01"⟩] =
      some [["Nombre Completo", "Grupos", "Fecha de Encuesta", "Email de Encuestados",
             "Pregunta 1"],
            ["Alice", "", ""]] := rfl

example :
    get_all_users [⟨some "Alice", some "a@x.com"⟩, ⟨some "Al", some "a@x.com"⟩,
        ⟨some "Bob", none⟩, ⟨some "Eve", some ""⟩] =
      [("a@x.com", ⟨"Al", "a@x.com"⟩)] := rfl

theorem pyIndex_eq_none_of_not_mem {l : List String} {x : String} (h : x ∉ l) :
    pyIndex l x = none := by
  induction l with
  | nil => rfl
  | cons a t ih =>
    have ha : ¬((a == x) = true) := by
      simp only [beq_iff_eq]
      exact fun hax => h (hax ▸ List.mem_cons_self a t)
    simp only [pyIndex, if_neg ha]
    rw [ih (fun hx => h (List.mem_cons_of_mem a hx))]
    rfl

/-- C7: for every user directory, merging an empty parsed record list yields
the empty table, with no header and no data rows, rather than an error. -/
theorem merge_empty_survey (all_users : List (String × User)) :
    merge_data all_users [] = some [] := rfl

/-- C1: at the round-trip input of the claim, with header columns Nombre, Q1,
Q2, Dirección Email, Fecha, Q3 and one data row, parse_survey_csv keeps the
email column value inside the answers sequence: answers are all columns other
than the name column and the date column, so the result is the four-element
list with the email in third place, not the three-element list the
specification demands. -/
theorem parse_email_goes_into_answers :
    parse_survey_csv
        "Nombre,Q1,Q2,Dirección Email,Fecha,Q3\nBob,a1,a2,bob@x.com,2025-01-01,a3" =
      some [⟨"Bob", "bob@x.com", ["a1", "a2", "bob@x.com", "a3"], "2025-01-01"⟩] ∧
    (["a1", "a2", "bob@x.com", "a3"] : List String) ≠ ["a1", "a2", "a3"] :=
  ⟨rfl, by decide⟩

/-- C3: for every CSV text whose header row, once cleaned, lacks the column
name Dirección Email or the column name Fecha, parse_survey_csv returns the
empty record sequence (some [], never the exception value none). -/
theorem parse_missing_column_empty (csv_text : String) (hdr : List String)
    (rest : List (List String))
    (hrows : csvRead ((splitNl (pyStrip csv_text).data).map String.mk) = hdr :: rest)
    (hmiss : "Dirección Email" ∉ hdr.map cleanField ∨ "Fecha" ∉ hdr.map cleanField) :
    parse_survey_csv csv_text = some [] := by
  simp only [parse_survey_csv, hrows]
  rcases hmiss with h | h
  · rw [pyIndex_eq_none_of_not_mem h]
  · rw [pyIndex_eq_none_of_not_mem h]
    cases pyIndex (hdr.map cleanField) "Dirección Email" <;> rfl

theorem parse_missing_column_empty_witness :
    parse_survey_csv "Nombre,Correo,Fecha\nBob,b@x.com,hoy" = some [] :=
  parse_missing_column_empty "Nombre,Correo,Fecha\nBob,b@x.com,hoy"
    ["Nombre", "Correo", "Fecha"] [["Bob", "b@x.com", "hoy"]] rfl (Or.inl (by decide))

theorem hasQuote_eq_false_iff {s : String} : hasQuote s = false ↔ ∀ c ∈ s.data, c ≠ '"' := by
  simp [hasQuote]

theorem hasQuote_cleanField (s : String) : hasQuote (cleanField s) = false := by
  rw [hasQuote_eq_false_iff]
  intro c hc
  simp only [cleanField, pyRemoveQuotes] at hc
  have := List.mem_filter.mp hc
  simpa using this.2

theorem mem_pyStrip {c : Char} {s : String} (h : c ∈ (pyStrip s).data) : c ∈ s.data := by
  simp only [pyStrip] at h
  rw [List.mem_reverse] at h
  have h1 : c ∈ (s.data.dropWhile pyWhitespace).reverse :=
    (List.dropWhile_sublist pyWhitespace).subset h
  rw [List.mem_reverse] at h1
  exact (List.dropWhile_sublist pyWhitespace).subset h1

theorem hasQuote_pyStrip {s : String} (h : hasQuote s = false) :
    hasQuote (pyStrip s) = false := by
  rw [hasQuote_eq_false_iff] at h ⊢
  exact fun c hc => h c (mem_pyStrip hc)

theorem parseRow_quote_free (idxEmail idxDate : Nat) (row : List String)
    (r : SurveyRecord) (h : parseRow idxEmail idxDate row = some r)
    (a : String) (ha : a ∈ r.name :: r.email :: r.date :: r.answers) :
    hasQuote a = false := by
  have hdata : ∀ s ∈ row.map cleanField, hasQuote s = false := by
    intro s hs
    rw [List.mem_map] at hs
    obtain ⟨f, _, rfl⟩ := hs
    exact hasQuote_cleanField f
  simp only [parseRow] at h
  cases he : (row.map cleanField).get? idxEmail with
  | none => rw [he] at h; exact absurd h (by simp)
  | some e =>
    rw [he] at h
    cases hn : (row.map cleanField).get? 0 with
    | none => rw [hn] at h; exact absurd h (by simp)
    | some n =>
      rw [hn] at h
      cases hd : (row.map cleanField).get? idxDate with
      | none => rw [hd] at h; exact absurd h (by simp)
      | some d =>
        rw [hd] at h
        injection h with h
        subst h
        simp only [List.mem_cons] at ha
        rcases ha with rfl | rfl | rfl | hans
        · exact hasQuote_pyStrip (hdata n (List.get?_mem hn))
        · exact hasQuote_pyStrip (hdata e (List.get?_mem he))
        · exact hdata a (List.get?_mem hd)
        · simp only [List.mem_append] at hans
          rcases hans with hans | hans
          · exact hdata a (List.take_subset _ _ (List.drop_subset _ _ hans))
          · exact hdata a (List.drop_subset _ _ hans)

theorem parseRows_mem (idxEmail idxDate : Nat) (rows : List (List String))
    (recs : List SurveyRecord) (h : parseRows idxEmail idxDate rows = some recs)
    (r : SurveyRecord) (hr : r ∈ recs) :
    ∃ row, parseRow idxEmail idxDate row = some r := by
  induction rows generalizing recs with
  | nil =>
    simp only [parseRows] at h
    injection h with h
    subst h
    simp at hr
  | cons row rest ih =>
    simp only [parseRows] at h
    cases hrow : parseRow idxEmail idxDate row with
    | none => rw [hrow] at h; exact absurd h (by simp)
    | some r0 =>
      rw [hrow] at h
      cases hrest : parseRows idxEmail idxDate rest with
      | none => rw [hrest] at h; exact absurd h (by simp)
      | some rs =>
        rw [hrest] at h
        injection h with h
        subst h
        rcases List.mem_cons.mp hr with rfl | hr2
        · exact ⟨row, hrow⟩
        · exact ih rs hrest hr2

/-- C10: every field of every record returned by parse_survey_csv, that is the
name, the email, the date and each answer, contains no double-quote
character. -/
theorem parse_no_quotes (csv_text : String) (recs : List SurveyRecord)
    (h : parse_survey_csv csv_text = some recs) (r : SurveyRecord) (hr : r ∈ recs)
    (a : String) (ha : a ∈ r.name :: r.email :: r.date :: r.answers) :
    hasQuote a = false := by
  simp only [parse_survey_csv] at h
  cases hrows : csvRead ((splitNl (pyStrip csv_text).data).map String.mk) with
  | nil => rw [hrows] at h; exact absurd h (by simp)
  | cons headerRow rest =>
    simp only [hrows] at h
    cases hie : pyIndex (headerRow.map cleanField) "Dirección Email" with
    | none =>
      simp only [hie] at h
      injection h with h
      subst h
      simp at hr
    | some idxEmail =>
      simp only [hie] at h
      cases hid : pyIndex (headerRow.map cleanField) "Fecha" with
      | none =>
        simp only [hid] at h
        injection h with h
        subst h
        simp at hr
      | some idxDate =>
        simp only [hid] at h
        obtain ⟨row, hrow⟩ := parseRows_mem idxEmail idxDate rest recs h r hr
        exact parseRow_quote_free idxEmail idxDate row r hrow a ha

theorem parse_no_quotes_witness : hasQuote "Bob" = false :=
  parse_no_quotes "Nombre,Dirección Email,Fecha\n\"Bo\"\"b\",b@x.com,hoy"
    [⟨"Bob", "b@x.com", ["b@x.com"], "hoy"⟩] rfl
    ⟨"Bob", "b@x.com", ["b@x.com"], "hoy"⟩ (by decide) "Bob" (by decide)

theorem mergeRows_length (survey : List SurveyRecord) (users : List User)
    (rows : List (List String)) (h : mergeRows survey users = some rows) :
    rows.length = users.length := by
  induction users generalizing rows with
  | nil =>
    simp only [mergeRows] at h
    injection h with h
    subst h
    rfl
  | cons u us ih =>
    simp only [mergeRows] at h
    cases hrow : merge_row survey u with
    | none => rw [hrow] at h; exact absurd h (by simp)
    | some row =>
      simp only [hrow] at h
      cases hrest : mergeRows survey us with
      | none => rw [hrest] at h; exact absurd h (by simp)
      | some rs =>
        simp only [hrest] at h
        injection h with h
        subst h
        simp [ih rs hrest]

theorem mergeRows_get (survey : List SurveyRecord) (users : List User)
    (rows : List (List String)) (h : mergeRows survey users = some rows)
    (i : Nat) (u : User) (hu : users.get? i = some u) :
    rows.get? i = merge_row survey u := by
  induction users generalizing rows i with
  | nil => simp at hu
  | cons u0 us ih =>
    simp only [mergeRows] at h
    cases hrow : merge_row survey u0 with
    | none => rw [hrow] at h; exact absurd h (by simp)
    | some row =>
      simp only [hrow] at h
      cases hrest : mergeRows survey us with
      | none => rw [hrest] at h; exact absurd h (by simp)
      | some rs =>
        simp only [hrest] at h
        injection h with h
        subst h
        cases i with
        | zero =>
          simp only [List.get?_cons_zero] at hu ⊢
          injection hu with hu
          subst hu
          exact hrow.symm
        | succ i =>
          simp only [List.get?_cons_succ] at hu ⊢
          exact ih rs hrest i hu

theorem merge_data_eq (all_users : List (String × User)) (s0 : SurveyRecord)
    (stail : List SurveyRecord) (t : List (List String))
    (h : merge_data all_users (s0 :: stail) = some t) :
    ∃ rows, mergeRows (s0 :: stail) (dictValues all_users) = some rows ∧
      t = mergeHeader s0.answers.length :: rows := by
  simp only [merge_data] at h
  cases hrows : mergeRows (s0 :: stail) (dictValues all_users) with
  | none => rw [hrows] at h; exact absurd h (by simp)
  | some rows =>
    simp only [hrows] at h
    injection h with h
    exact ⟨rows, rfl, h.symm⟩

theorem merge_row_of_find (survey : List SurveyRecord) (u : User) (e : SurveyRecord)
    (he : survey.find? (fun entry => entry.email == u.email) = some e)
    (g : String) (rest : List String) (hans : e.answers = g :: rest) :
    merge_row survey u = some ([u.name, g, e.date] ++ rest) := by
  simp [merge_row, he, hans]

theorem merge_row_of_none (survey : List SurveyRecord) (u : User)
    (he : survey.find? (fun entry => entry.email == u.email) = none) :
    merge_row survey u = some [u.name, "", ""] := by
  simp [merge_row, he]

theorem find?_append_left_none {α : Type} {p : α → Bool} {l₁ l₂ : List α}
    (h : l₁.find? p = none) : (l₁ ++ l₂).find? p = l₂.find? p := by
  rw [List.find?_append, h]
  rfl

/-- C2 counterexample: with a single answer column the header is five cells
wide, while the row of a user with no matching record is the name followed by
exactly two blank cells, so the blank count is not the answer-column count
and the row is narrower than the header. -/
theorem merge_blank_row_shape_counterexample :
    merge_data [("alice@x.com", ⟨"Alice", "alice@x.com"⟩)]
        [⟨"Bob", "bob@x.com", ["g"], "2025-01-01"⟩] =
      some [["Nombre Completo", "Grupos", "Fecha de Encuesta", "Email de Encuestados",
             "Pregunta 1"],
            ["Alice", "", ""]] ∧
    (["Alice", "", ""] : List String).length ≠
      (["Nombre Completo", "Grupos", "Fecha de Encuesta", "Email de Encuestados",
        "Pregunta 1"] : List String).length ∧
    (["Alice", "", ""] : List String).length ≠ 1 + 1 :=
  ⟨rfl, by decide, by decide⟩

/-- C2 amended: for every user directory and non-empty record list for which
merge_data yields a table, the table has exactly one data row per user in
directory order, and a user whose email matches no record gets the row made
of the name followed by exactly two blank cells (group and date), whatever
the answer-column count. -/
theorem merge_one_row_per_user (all_users : List (String × User))
    (survey : List SurveyRecord) (s0 : SurveyRecord) (stail : List SurveyRecord)
    (hs : survey = s0 :: stail) (t : List (List String))
    (hm : merge_data all_users survey = some t)
    (i : Nat) (u : User) (hu : (dictValues all_users).get? i = some u)
    (hnomatch : ∀ r ∈ survey, r.email ≠ u.email) :
    t.length = (dictValues all_users).length + 1 ∧
    t.get? (i + 1) = some [u.name, "", ""] := by
  subst hs
  obtain ⟨rows, hrows, rfl⟩ := merge_data_eq all_users s0 stail t hm
  constructor
  · simp [mergeRows_length _ _ _ hrows]
  · rw [List.get?_cons_succ, mergeRows_get _ _ _ hrows i u hu]
    apply merge_row_of_none
    rw [List.find?_eq_none]
    intro r hrmem
    simp only [beq_iff_eq]
    exact hnomatch r hrmem

theorem merge_one_row_per_user_witness :
    ([["Nombre Completo", "Grupos", "Fecha de Encuesta", "Email de Encuestados",
       "Pregunta 1"],
      ["Alice", "", ""]] : List (List String)).length =
      (dictValues [("alice@x.com", ⟨"Alice", "alice@x.com"⟩)]).length + 1 ∧
    ([["Nombre Completo", "Grupos", "Fecha de Encuesta", "Email de Encuestados",
       "Pregunta 1"],
      ["Alice", "", ""]] : List (List String)).get? (0 + 1) = some ["Alice", "", ""] :=
  merge_one_row_per_user [("alice@x.com", ⟨"Alice", "alice@x.com"⟩)]
    [⟨"Bob", "bob@x.com", ["g"], "2025-01-01"⟩]
    ⟨"Bob", "bob@x.com", ["g"], "2025-01-01"⟩ [] rfl
    [["Nombre Completo", "Grupos", "Fecha de Encuesta", "Email de Encuestados",
      "Pregunta 1"],
     ["Alice", "", ""]] rfl
    0 ⟨"Alice", "alice@x.com"⟩ rfl (by decide)

/-- C4: when two records share an email and a user in the directory carries
that email, the joined row is determined by the earlier record in source
order, provided no record before it matches: its first answer becomes the
group, its date the date, and its remaining answers the answer cells. -/
theorem merge_first_match_wins (all_users : List (String × User))
    (pre mid post : List SurveyRecord) (r1 r2 : SurveyRecord)
    (hemail : r2.email = r1.email)
    (i : Nat) (u : User) (hu : (dictValues all_users).get? i = some u)
    (hue : r1.email = u.email)
    (hpre : ∀ r ∈ pre, r.email ≠ u.email)
    (g : String) (rest : List String) (hans : r1.answers = g :: rest)
    (t : List (List String))
    (hm : merge_data all_users (pre ++ r1 :: (mid ++ r2 :: post)) = some t) :
    t.get? (i + 1) = some ([u.name, g, r1.date] ++ rest) := by
  have hfind : (pre ++ r1 :: (mid ++ r2 :: post)).find?
      (fun entry => entry.email == u.email) = some r1 := by
    rw [find?_append_left_none]
    · exact List.find?_cons_of_pos _ (by simp [hue])
    · rw [List.find?_eq_none]
      intro r hrmem
      simp only [beq_iff_eq]
      exact hpre r hrmem
  obtain ⟨s0, stail, hs⟩ : ∃ s0 stail, pre ++ r1 :: (mid ++ r2 :: post) = s0 :: stail := by
    cases pre with
    | nil => exact ⟨r1, mid ++ r2 :: post, rfl⟩
    | cons p0 pre2 => exact ⟨p0, pre2 ++ r1 :: (mid ++ r2 :: post), rfl⟩
  rw [hs] at hm hfind
  obtain ⟨rows, hrows, rfl⟩ := merge_data_eq _ _ _ _ hm
  rw [List.get?_cons_succ, mergeRows_get _ _ _ hrows i u hu]
  exact merge_row_of_find _ _ _ hfind _ _ hans

theorem merge_first_match_wins_witness :
    ([["Nombre Completo", "Grupos", "Fecha de Encuesta", "Email de Encuestados",
       "Pregunta 1"],
      ["Uma", "g1", "d1", "a1"]] : List (List String)).get? (0 + 1) =
      some (["Uma", "g1", "d1"] ++ ["a1"]) :=
  merge_first_match_wins [("u@x.com", ⟨"Uma", "u@x.com"⟩)]
    [⟨"Olga", "o@x.com", ["x"], "d0"⟩] [] []
    ⟨"Uma", "u@x.com", ["g1", "a1"], "d1"⟩ ⟨"Uma2", "u@x.com", ["g2", "a2"], "d2"⟩ rfl
    0 ⟨"Uma", "u@x.com"⟩ rfl rfl (by decide) "g1" ["a1"] rfl
    [["Nombre Completo", "Grupos", "Fecha de Encuesta", "Email de Encuestados",
      "Pregunta 1"],
     ["Uma", "g1", "d1", "a1"]] rfl

/-- C5: whenever merge_data produces a table from a non-empty record list,
the table has one header row of exactly 4 plus the first record's
answer-column count cells, and one data row per user in the directory. -/
theorem merge_table_shape (all_users : List (String × User)) (s0 : SurveyRecord)
    (stail : List SurveyRecord) (t : List (List String))
    (hm : merge_data all_users (s0 :: stail) = some t) :
    t.length = (dictValues all_users).length + 1 ∧
    t.head? = some (mergeHeader s0.answers.length) ∧
    (mergeHeader s0.answers.length).length = 4 + s0.answers.length := by
  obtain ⟨rows, hrows, rfl⟩ := merge_data_eq all_users s0 stail t hm
  refine ⟨?_, rfl, ?_⟩
  · simp [mergeRows_length _ _ _ hrows]
  · simp [mergeHeader, sampleQs]
    omega

theorem merge_table_shape_witness :
    ([["Nombre Completo", "Grupos", "Fecha de Encuesta", "Email de Encuestados",
       "Pregunta 1"],
      ["Alice", "", ""]] : List (List String)).length =
      (dictValues [("alice@x.com", ⟨"Alice", "alice@x.com"⟩)]).length + 1 ∧
    ([["Nombre Completo", "Grupos", "Fecha de Encuesta", "Email de Encuestados",
       "Pregunta 1"],
      ["Alice", "", ""]] : List (List String)).head? = some (mergeHeader 1) ∧
    (mergeHeader 1).length = 4 + 1 :=
  merge_table_shape [("alice@x.com", ⟨"Alice", "alice@x.com"⟩)]
    ⟨"Bob", "bob@x.com", ["g"], "2025-01-01"⟩ []
    [["Nombre Completo", "Grupos", "Fecha de Encuesta", "Email de Encuestados",
      "Pregunta 1"],
     ["Alice", "", ""]] rfl

/-- C8: a user whose email matches a record gets the row built from the first
matching record: the record's first answer in the group cell, then the date,
then the answers with the first omitted, for 3 plus answer count minus one
cells in total. -/
theorem merge_responder_row (all_users : List (String × User))
    (survey : List SurveyRecord) (t : List (List String))
    (hm : merge_data all_users survey = some t)
    (i : Nat) (u : User) (hu : (dictValues all_users).get? i = some u)
    (e : SurveyRecord) (he : survey.find? (fun entry => entry.email == u.email) = some e)
    (g : String) (rest : List String) (hans : e.answers = g :: rest) :
    t.get? (i + 1) = some ([u.name, g, e.date] ++ rest) ∧
    ([u.name, g, e.date] ++ rest).length = 3 + (e.answers.length - 1) := by
  obtain ⟨s0, stail, hs⟩ : ∃ s0 stail, survey = s0 :: stail := by
    cases survey with
    | nil => simp [List.find?] at he
    | cons a b => exact ⟨a, b, rfl⟩
  subst hs
  obtain ⟨rows, hrows, rfl⟩ := merge_data_eq _ _ _ _ hm
  constructor
  · rw [List.get?_cons_succ, mergeRows_get _ _ _ hrows i u hu]
    exact merge_row_of_find _ _ _ he _ _ hans
  · simp [hans]
    omega

theorem merge_responder_row_witness :
    ([["Nombre Completo", "Grupos", "Fecha de Encuesta", "Email de Encuestados",
       "Pregunta 1", "Pregunta 2"],
      ["Uma", "g1", "d1", "a1"]] : List (List String)).get? (0 + 1) =
      some (["Uma", "g1", "d1"] ++ ["a1"]) ∧
    ((["Uma", "g1", "d1"] : List String) ++ ["a1"]).length =
      3 + ((["g1", "a1"] : List String).length - 1) :=
  merge_responder_row [("u@x.com", ⟨"Uma", "u@x.com"⟩)]
    [⟨"Uma", "u@x.com", ["g1", "a1"], "d1"⟩]
    [["Nombre Completo", "Grupos", "Fecha de Encuesta", "Email de Encuestados",
      "Pregunta 1", "Pregunta 2"],
     ["Uma", "g1", "d1", "a1"]] rfl
    0 ⟨"Uma", "u@x.com"⟩ rfl
    ⟨"Uma", "u@x.com", ["g1", "a1"], "d1"⟩ rfl "g1" ["a1"] rfl

/-- C6 counterexample: with more than one unquoted date-related cell after
the Fecha column, the date field keeps only the single cell at the Fecha
index ("lunes"); the day, date and time cells are not collapsed into one
combined string, and the extra cells land among the answers instead. -/
theorem parse_date_not_collapsed_counterexample :
    parse_survey_csv
        "Nombre,Dirección Email,Fecha,Pregunta\nBob,b@x.com,lunes,14 enero 2025,10:00" =
      some [⟨"Bob", "b@x.com", ["b@x.com", "14 enero 2025", "10:00"], "lunes"⟩] ∧
    ("lunes" : String) ≠ "lunes 14 enero 2025 10:00" ∧
    ("lunes" : String) ≠ "lunes, 14 enero 2025, 10:00" :=
  ⟨rfl, by decide, by decide⟩

/-- C6 amended: the parser never merges adjacent cells: the date field of a
parsed record is exactly the single cleaned cell at the Fecha column index; a
combined date string arrives only when the CSV already quotes the day, date
and time sub-fields into that one cell. -/
theorem parse_date_single_cell (idxEmail idxDate : Nat) (row : List String)
    (r : SurveyRecord) (h : parseRow idxEmail idxDate row = some r) :
    (row.map cleanField).get? idxDate = some r.date := by
  simp only [parseRow] at h
  cases he : (row.map cleanField).get? idxEmail with
  | none => rw [he] at h; exact absurd h (by simp)
  | some e =>
    rw [he] at h
    cases hn : (row.map cleanField).get? 0 with
    | none => rw [hn] at h; exact absurd h (by simp)
    | some n =>
      rw [hn] at h
      cases hd : (row.map cleanField).get? idxDate with
      | none => rw [hd] at h; exact absurd h (by simp)
      | some d =>
        rw [hd] at h
        injection h with h
        subst h
        rfl

theorem parse_date_single_cell_witness :
    ((["Bob", "b@x.com", "\"lunes, 14 enero 2025, 10:00\"", "ok"] : List String).map
        cleanField).get? 2 = some "lunes, 14 enero 2025, 10:00" :=
  parse_date_single_cell 1 2 ["Bob", "b@x.com", "\"lunes, 14 enero 2025, 10:00\"", "ok"]
    ⟨"Bob", "b@x.com", ["b@x.com", "ok"], "lunes, 14 enero 2025, 10:00"⟩ rfl

theorem mem_dictInsert (d : List (String × User)) (k : String) (v : User)
    (p : String × User) (hp : p ∈ dictInsert d k v) : p = (k, v) ∨ p ∈ d := by
  induction d with
  | nil => simpa [dictInsert] using hp
  | cons q d ih =>
    simp only [dictInsert] at hp
    by_cases hqk : (q.1 == k) = true
    · rw [if_pos hqk] at hp
      rcases List.mem_cons.mp hp with rfl | hpd
      · exact Or.inl rfl
      · exact Or.inr (List.mem_cons_of_mem q hpd)
    · rw [if_neg hqk] at hp
      rcases List.mem_cons.mp hp with rfl | hpd
      · exact Or.inr (List.mem_cons_self _ _)
      · rcases ih hpd with h | h
        · exact Or.inl h
        · exact Or.inr (List.mem_cons_of_mem q h)

theorem dictInsert_keys (d : List (String × User)) (k : String) (v : User) :
    (dictInsert d k v).map Prod.fst =
      if k ∈ d.map Prod.fst then d.map Prod.fst else d.map Prod.fst ++ [k] := by
  induction d with
  | nil => simp [dictInsert]
  | cons q d ih =>
    simp only [dictInsert]
    by_cases hqk : q.1 = k
    · rw [if_pos (beq_iff_eq.mpr hqk)]
      simp [hqk]
    · rw [if_neg (by simpa [beq_iff_eq] using hqk)]
      simp only [List.map_cons, ih]
      by_cases hk : k ∈ d.map Prod.fst
      · simp [hk, List.mem_cons, Ne.symm hqk]
      · simp [hk, List.mem_cons, Ne.symm hqk]

theorem find?_dictInsert (d : List (String × User)) (k e : String) (v : User) :
    (dictInsert d k v).find? (fun p => p.1 == e) =
      if e = k then some (k, v) else d.find? (fun p => p.1 == e) := by
  induction d with
  | nil =>
    by_cases hek : e = k
    · subst hek
      simp [dictInsert]
    · rw [if_neg hek]
      simp only [dictInsert]
      rw [List.find?_cons_of_neg _ (by simp only [beq_iff_eq]; exact fun h => hek h.symm)]
  | cons q d ih =>
    simp only [dictInsert]
    by_cases hqk : q.1 = k
    · rw [if_pos (beq_iff_eq.mpr hqk)]
      by_cases hek : e = k
      · subst hek
        rw [if_pos rfl]
        exact List.find?_cons_of_pos _ (by simp)
      · rw [if_neg hek]
        rw [List.find?_cons_of_neg _ (by simp only [beq_iff_eq]; exact fun h => hek h.symm)]
        rw [List.find?_cons_of_neg _
          (by simp only [beq_iff_eq]; exact fun h => hek (h.symm.trans hqk))]
    · rw [if_neg (by simp only [beq_iff_eq]; exact hqk)]
      by_cases hqe : q.1 = e
      · have hek : ¬e = k := fun h => hqk (hqe.trans h)
        rw [if_neg hek]
        rw [List.find?_cons_of_pos _ (by simp [hqe]),
          List.find?_cons_of_pos _ (by simp [hqe])]
      · rw [List.find?_cons_of_neg _ (by simp only [beq_iff_eq]; exact hqe), ih]
        by_cases hek : e = k
        · rw [if_pos hek, if_pos hek]
        · rw [if_neg hek, if_neg hek,
            List.find?_cons_of_neg _ (by simp only [beq_iff_eq]; exact hqe)]

theorem dictFind_insert (d : List (String × User)) (k e : String) (v : User) :
    dictFind (dictInsert d k v) e = if e = k then some v else dictFind d e := by
  simp only [dictFind, find?_dictInsert]
  by_cases hek : e = k
  · simp [hek]
  · simp [hek]

theorem rosterStep_none (users : List (String × User)) (u : RosterUser)
    (h : u.email = none) : rosterStep users u = users := by
  simp [rosterStep, h]

theorem rosterStep_skip (users : List (String × User)) (u : RosterUser)
    (h : u.email = some "") : rosterStep users u = users := by
  simp [rosterStep, h]

theorem rosterStep_some (users : List (String × User)) (u : RosterUser) (k : String)
    (h : u.email = some k) (hk : k ≠ "") :
    rosterStep users u = dictInsert users k { name := u.fullname.getD "", email := k } := by
  simp [rosterStep, h, hk]

theorem get_all_users_append (data : List RosterUser) (u : RosterUser) :
    get_all_users (data ++ [u]) = rosterStep (get_all_users data) u := by
  simp [get_all_users, List.foldl_append]

/-- C9: in the dict built by get_all_users every key equals the email stored
in its value, the keys are unique, roster entries with a missing or empty
email contribute nothing, and looking up a nonempty email returns the user
built from the last roster entry carrying that email. -/
theorem get_all_users_spec (data : List RosterUser) (e : String) :
    (∀ p ∈ get_all_users data, p.1 = p.2.email) ∧
    ((get_all_users data).map Prod.fst).Nodup ∧
    dictFind (get_all_users data) e =
      (if e = "" then none
       else ((data.filter (fun u => u.email == some e)).getLast?).map
         (fun u => { name := u.fullname.getD "", email := e })) := by
  induction data using List.reverseRecOn with
  | nil =>
    refine ⟨by simp [get_all_users], by simp [get_all_users], ?_⟩
    simp only [get_all_users, List.foldl_nil, dictFind, List.find?, List.filter_nil,
      List.getLast?, Option.map_none']
    split <;> rfl
  | append_singleton data u ih =>
    obtain ⟨ih1, ih2, ih3⟩ := ih
    rw [get_all_users_append]
    cases hmail : u.email with
    | none =>
      rw [rosterStep_none _ _ hmail]
      refine ⟨ih1, ih2, ?_⟩
      have hbe : (u.email == some e) = false := by rw [hmail]; rfl
      have hfilter : (data ++ [u]).filter (fun x => x.email == some e) =
          data.filter (fun x => x.email == some e) := by
        simp [List.filter_append, List.filter_cons, hbe]
      rw [hfilter]
      exact ih3
    | some k =>
      by_cases hk : k = ""
      · subst hk
        rw [rosterStep_skip _ _ hmail]
        refine ⟨ih1, ih2, ?_⟩
        by_cases he : e = ""
        · subst he
          rw [if_pos rfl, ih3, if_pos rfl]
        · have hbe : (u.email == some e) = false := by
            rw [hmail]
            have : ((some "" : Option String) == some e) = ("" == e) := rfl
            rw [this]
            exact beq_eq_false_iff_ne.mpr (Ne.symm he)
          have hfilter : (data ++ [u]).filter (fun x => x.email == some e) =
              data.filter (fun x => x.email == some e) := by
            simp [List.filter_append, List.filter_cons, hbe]
          rw [hfilter]
          exact ih3
      · rw [rosterStep_some _ _ _ hmail hk]
        refine ⟨?_, ?_, ?_⟩
        · intro p hp
          rcases mem_dictInsert _ _ _ p hp with rfl | hp2
          · rfl
          · exact ih1 p hp2
        · rw [dictInsert_keys]
          by_cases hmem : k ∈ (get_all_users data).map Prod.fst
          · simpa [hmem] using ih2
          · rw [if_neg hmem, List.nodup_append]
            refine ⟨ih2, List.nodup_singleton k, ?_⟩
            intro x hx hx2
            rw [List.mem_singleton] at hx2
            exact hmem (hx2 ▸ hx)
        · rw [dictFind_insert]
          by_cases hek : e = k
          · rw [if_pos hek, if_neg (fun h0 : e = "" => hk (hek ▸ h0))]
            have hbe : (u.email == some e) = true := by
              rw [hmail]
              have : ((some k : Option String) == some e) = (k == e) := rfl
              rw [this]
              exact beq_iff_eq.mpr hek.symm
            have hfilter : (data ++ [u]).filter (fun x => x.email == some e) =
                data.filter (fun x => x.email == some e) ++ [u] := by
              simp [List.filter_append, List.filter_cons, hbe]
            rw [hfilter, List.getLast?_concat, Option.map_some']
            subst hek
            rfl
          · rw [if_neg hek]
            have hbe : (u.email == some e) = false := by
              rw [hmail]
              have : ((some k : Option String) == some e) = (k == e) := rfl
              rw [this]
              exact beq_eq_false_iff_ne.mpr (fun h => hek h.symm)
            have hfilter : (data ++ [u]).filter (fun x => x.email == some e) =
                data.filter (fun x => x.email == some e) := by
              simp [List.filter_append, List.filter_cons, hbe]
            rw [hfilter]
            exact ih3

theorem get_all_users_spec_witness :
    dictFind (get_all_users [⟨some "Alice", some "a@x.com"⟩, ⟨some "Bob", none⟩,
        ⟨some "Eve", some ""⟩, ⟨some "Al", some "a@x.com"⟩]) "a@x.com" =
      some ⟨"Al", "a@x.com"⟩ :=
  ((get_all_users_spec [⟨some "Alice", some "a@x.com"⟩, ⟨some "Bob", none⟩,
      ⟨some "Eve", some ""⟩, ⟨some "Al", some "a@x.com"⟩] "a@x.com").2.2).trans (by decide)
